import Mathlib

/-!
# Verification of the Plan Store Service (src/server.js)

A shallow embedding of the Express + SQLite CRUD backend for "plan"
records.  The SQLite table `plans` is modelled as a list of rows plus the
AUTOINCREMENT counter; each HTTP handler becomes a function from the store
(and, where the handler reads a clock, explicit timestamp arguments) to
the new store and an `Except`-style response.  JavaScript falsiness on
optional JSON fields is modelled explicitly, as are the SQL `NOT NULL`
and `CHECK(priority IN ('low','medium','high'))` constraints and the SQL
semantics of `SUM` over an empty table (which yields `NULL`).
-/

namespace PlanStore

/-- A scalar JSON value, as it may arrive in a request body parsed by
`express.json()`.  Used to model the `completed` field of an update
request, which the handler coerces with JavaScript truthiness
(`completed ? 1 : 0` in `src/server.js` line 111). -/
inductive JVal where
  | jnull
  | jbool (b : Bool)
  | jnum (n : Int)
  | jstr (s : String)
deriving DecidableEq, Repr

/-- JavaScript truthiness of a scalar JSON value: `null`, `false`, `0`
and `""` are falsy, everything else is truthy. -/
def JVal.truthy : JVal → Bool
  | .jnull => false
  | .jbool b => b
  | .jnum n => n != 0
  | .jstr s => s != ""

/-- Truthiness of a possibly absent JSON field: an absent field
(`undefined` in JavaScript) is falsy. -/
def jtruthy : Option JVal → Bool
  | none => false
  | some v => v.truthy

/-- JavaScript falsiness of a possibly absent string field: absent
(`undefined`) and the empty string are falsy.  This is the `!title`
test of `src/server.js` line 76. -/
def strFalsy : Option String → Bool
  | none => true
  | some s => s == ""

/-- The JavaScript `x || d` defaulting idiom applied to a possibly
absent string field: an absent field or an empty string is replaced by
the default `d` (`description || ''`, `priority || 'medium'` in
`src/server.js` lines 84 and 111). -/
def orDefault (o : Option String) (d : String) : String :=
  match o with
  | none => d
  | some s => if s == "" then d else s

/-- The SQL `CHECK(priority IN ('low', 'medium', 'high'))` constraint of
the `plans` table (`src/server.js` line 29). -/
def validPriority (p : String) : Bool :=
  p == "low" || p == "medium" || p == "high"

/-- A row of the `plans` table (`src/server.js` lines 25-33).  `completed`
is a SQLite `BOOLEAN` that every code path stores as 0 or 1, so it is
modelled as `Bool`; `created_at` is the `DATETIME DEFAULT
CURRENT_TIMESTAMP` column, modelled as a numeric timestamp. -/
structure Plan where
  id : Nat
  title : String
  description : String
  priority : String
  deadline : String
  author : String
  completed : Bool
  created_at : Nat
deriving DecidableEq, Repr

/-- The persistent state: the rows of the `plans` table in insertion
order, plus the AUTOINCREMENT counter that assigns the next `id`. -/
structure Store where
  plans : List Plan
  nextId : Nat
deriving DecidableEq, Repr

/-- The state after `initDatabase` has created an empty table: no rows,
AUTOINCREMENT assigning ids from 1. -/
def initStore : Store := { plans := [], nextId := 1 }

/-- The error taxonomy of the service (spec section 7): missing required
input (HTTP 400), no matching row (HTTP 404), datastore failure such as a
violated SQL constraint (HTTP 500). -/
inductive ApiError where
  | ValidationError
  | NotFound
  | StorageError
deriving DecidableEq, Repr

/-- The HTTP status code each error is surfaced with in `src/server.js`. -/
def statusOf : ApiError → Nat
  | .ValidationError => 400
  | .NotFound => 404
  | .StorageError => 500

/-- `db.get('SELECT * FROM plans WHERE id = ?')`: the first row whose
`id` matches. -/
def findPlan (id : Nat) (s : Store) : Option Plan :=
  s.plans.find? (fun p => p.id == id)

/-- `GET /api/plans/:id` (`src/server.js` lines 57-70): returns the
matching row, or a 404 not-found error when no row matches.  The handler
performs a single `SELECT` and never writes, so the store is unchanged by
construction. -/
def getPlan (id : Nat) (s : Store) : Except ApiError Plan :=
  match findPlan id s with
  | none => .error .NotFound
  | some row => .ok row

/-- The body of a `POST /api/plans` request: every field may be absent. -/
structure CreateReq where
  title : Option String
  description : Option String
  priority : Option String
  deadline : Option String
  author : Option String
deriving DecidableEq, Repr

/-- The JSON response of a successful create (`src/server.js` lines
89-98): the handler materializes the record itself, in particular
`created_at` is `new Date().toISOString()` computed by the service, not
re-read from the database. -/
structure CreateResp where
  id : Nat
  title : String
  description : String
  priority : String
  deadline : String
  author : String
  completed : Bool
  created_at : Nat
deriving DecidableEq, Repr

/-- The row the `INSERT` of `src/server.js` lines 81-84 stores: bound
values `[title, description || '', priority || 'medium', deadline,
author]`, `completed` defaulting to 0 and `created_at` to the database
clock `dbNow` (`CURRENT_TIMESTAMP`). -/
def mkPlan (req : CreateReq) (id : Nat) (dbNow : Nat) : Plan :=
  { id := id
    title := req.title.getD ""
    description := orDefault req.description ""
    priority := orDefault req.priority "medium"
    deadline := req.deadline.getD ""
    author := req.author.getD ""
    completed := false
    created_at := dbNow }

/-- `POST /api/plans` (`src/server.js` lines 73-100).  If `title`,
`deadline` or `author` is falsy the handler answers 400 and runs no SQL.
Otherwise the `INSERT` runs; the `CHECK` constraint on `priority` rejects
a value outside the enumeration with a storage error, and on success a
fresh row is appended, `lastID` is the assigned id, and the response is
materialized with the service clock `jsNow`. -/
def createPlan (req : CreateReq) (dbNow jsNow : Nat) (s : Store) :
    Store × Except ApiError CreateResp :=
  if strFalsy req.title || strFalsy req.deadline || strFalsy req.author then
    (s, .error .ValidationError)
  else if validPriority (orDefault req.priority "medium") then
    ({ plans := s.plans ++ [mkPlan req s.nextId dbNow], nextId := s.nextId + 1 },
     .ok { id := s.nextId
           title := req.title.getD ""
           description := orDefault req.description ""
           priority := orDefault req.priority "medium"
           deadline := req.deadline.getD ""
           author := req.author.getD ""
           completed := false
           created_at := jsNow })
  else (s, .error .StorageError)

/-- The body of a `PUT /api/plans/:id` request: every field may be
absent. -/
structure UpdateReq where
  title : Option String
  description : Option String
  priority : Option String
  deadline : Option String
  author : Option String
  completed : Option JVal
deriving DecidableEq, Repr

/-- The effect of the `UPDATE` of `src/server.js` lines 107-111 on one
matching row.  An absent `title`, `deadline` or `author` is bound as SQL
`NULL` and violates the column's `NOT NULL` constraint; a defaulted
`priority` outside the enumeration violates the `CHECK` constraint; in
either case the statement fails with a storage error.  Otherwise every
mutable field is overwritten: `description || ''`,
`priority || 'medium'`, `completed ? 1 : 0`. -/
def applyUpdate (req : UpdateReq) (p : Plan) : Except ApiError Plan :=
  match req.title, req.deadline, req.author with
  | some t, some d, some a =>
    if validPriority (orDefault req.priority "medium") then
      .ok { p with
            title := t
            description := orDefault req.description ""
            priority := orDefault req.priority "medium"
            deadline := d
            author := a
            completed := jtruthy req.completed }
    else .error .StorageError
  | _, _, _ => .error .StorageError

/-- The total rewrite a well-formed update applies to a matching row. -/
def updFn (req : UpdateReq) (p : Plan) : Plan :=
  { p with
    title := req.title.getD ""
    description := orDefault req.description ""
    priority := orDefault req.priority "medium"
    deadline := req.deadline.getD ""
    author := req.author.getD ""
    completed := jtruthy req.completed }

/-- The `UPDATE ... WHERE id = ?` statement applied to the table rows in
order: rows whose `id` differs are untouched and no constraint is checked
on them; the first constraint violation aborts the whole statement. -/
def updateList (req : UpdateReq) (id : Nat) : List Plan → Except ApiError (List Plan)
  | [] => .ok []
  | p :: rest =>
    if p.id == id then
      match applyUpdate req p with
      | .error e => .error e
      | .ok q =>
        match updateList req id rest with
        | .error e => .error e
        | .ok qs => .ok (q :: qs)
    else
      match updateList req id rest with
      | .error e => .error e
      | .ok qs => .ok (p :: qs)

/-- `PUT /api/plans/:id` (`src/server.js` lines 103-122).  A constraint
violation is surfaced as a 500 storage error with the table unchanged;
`this.changes === 0` (no row matched, so no constraint was ever
evaluated) is surfaced as 404; otherwise the handler reports the number
of changed rows. -/
def updatePlan (id : Nat) (req : UpdateReq) (s : Store) :
    Store × Except ApiError Nat :=
  match updateList req id s.plans with
  | .error e => (s, .error e)
  | .ok newPlans =>
    if (s.plans.filter (fun p => p.id == id)).length == 0 then (s, .error .NotFound)
    else ({ s with plans := newPlans },
      .ok (s.plans.filter (fun p => p.id == id)).length)

/-- `DELETE /api/plans/:id` (`src/server.js` lines 125-139): removes
every row whose `id` matches; `this.changes === 0` is surfaced as 404,
otherwise the handler reports the number of removed rows. -/
def deletePlan (id : Nat) (s : Store) : Store × Except ApiError Nat :=
  if (s.plans.filter (fun p => p.id == id)).length == 0 then (s, .error .NotFound)
  else ({ s with plans := s.plans.filter (fun p => !(p.id == id)) },
    .ok (s.plans.filter (fun p => p.id == id)).length)

/-- `PATCH /api/plans/:id/toggle` (`src/server.js` lines 142-164): a
compound read-then-write.  `SELECT completed` fetches the current flag
(404 when no row matches); the follow-up `UPDATE` writes the JavaScript
negation `!row.completed` to every matching row and reports the number
of changed rows alongside the new flag. -/
def togglePlan (id : Nat) (s : Store) : Store × Except ApiError (Bool × Nat) :=
  match findPlan id s with
  | none => (s, .error .NotFound)
  | some row =>
    ({ s with
       plans := s.plans.map
         (fun p => if p.id == id then { p with completed := !row.completed } else p) },
     .ok (!row.completed, (s.plans.filter (fun p => p.id == id)).length))

/-- The response of `GET /api/stats`.  The SQL `SUM` aggregate over zero
rows is `NULL`, so `completed` and `high_priority` are nullable. -/
structure Stats where
  total : Nat
  completed : Option Nat
  high_priority : Option Nat
deriving DecidableEq, Repr

/-- `GET /api/stats` (`src/server.js` lines 167-181): `COUNT(*)` is the
number of rows; `SUM(CASE WHEN completed = 1 THEN 1 ELSE 0 END)` and
`SUM(CASE WHEN priority = 'high' THEN 1 ELSE 0 END)` count the matching
rows when the table is nonempty, and are SQL `NULL` (serialized as JSON
`null`) when the table is empty, because `SUM` over zero rows is `NULL`. -/
def getStats (s : Store) : Stats :=
  { total := s.plans.length
    completed :=
      if s.plans.isEmpty then none
      else some ((s.plans.filter (fun p => p.completed)).length)
    high_priority :=
      if s.plans.isEmpty then none
      else some ((s.plans.filter (fun p => p.priority == "high")).length) }

/-- `GET /api/plans` (`src/server.js` lines 46-54): `SELECT * FROM plans
ORDER BY created_at DESC`. -/
def listPlans (s : Store) : List Plan :=
  s.plans.mergeSort (fun a b => b.created_at ≤ a.created_at)

/-- Well-formedness of a store state: the AUTOINCREMENT counter is at
least 1, every row's id is positive and below the counter, and ids are
strictly increasing in insertion order (hence pairwise distinct, as the
`INTEGER PRIMARY KEY` guarantees).  `initStore` satisfies it and every
operation preserves it. -/
def WF (s : Store) : Prop :=
  1 ≤ s.nextId ∧ (∀ p ∈ s.plans, 0 < p.id ∧ p.id < s.nextId) ∧
    s.plans.Pairwise (fun a b => a.id < b.id)

/-- The stores reachable from the freshly initialized database by the
service's operations (with arbitrary request bodies and clocks). -/
inductive Reachable : Store → Prop where
  | init : Reachable initStore
  | create (req : CreateReq) (dbNow jsNow : Nat) (s : Store) :
      Reachable s → Reachable (createPlan req dbNow jsNow s).1
  | update (id : Nat) (req : UpdateReq) (s : Store) :
      Reachable s → Reachable (updatePlan id req s).1
  | del (id : Nat) (s : Store) :
      Reachable s → Reachable (deletePlan id s).1
  | toggle (id : Nat) (s : Store) :
      Reachable s → Reachable (togglePlan id s).1

/-- A well-formed update body per the spec's input signature for the
update operation: `title`, `deadline`, `author` present, and the
defaulted `priority` inside the enumeration, so that no SQL constraint
fires. -/
def WFReq (req : UpdateReq) : Prop :=
  req.title.isSome = true ∧ req.deadline.isSome = true ∧ req.author.isSome = true ∧
    validPriority (orDefault req.priority "medium") = true

/-- The create body of the spec's end-to-end scenario. -/
def demoReq : CreateReq :=
  ⟨some "Ship release", none, none, some "2024-06-01", some "alice"⟩

/-- The store after creating `demoReq` in the fresh database at database
clock 0 and service clock 5. -/
def demoStore : Store := (createPlan demoReq 0 5 initStore).1

/-- The row stored by that create. -/
def demoPlan : Plan :=
  ⟨1, "Ship release", "", "medium", "2024-06-01", "alice", false, 0⟩

/-- The response of that create (service clock 5 materialized). -/
def demoResp : CreateResp :=
  ⟨1, "Ship release", "", "medium", "2024-06-01", "alice", false, 5⟩

/-- The store after a second create of the same body at database clock 1
and service clock 6. -/
def demoStore2 : Store := (createPlan demoReq 1 6 demoStore).1

/-- The response of the second create. -/
def demoResp2 : CreateResp :=
  ⟨2, "Ship release", "", "medium", "2024-06-01", "alice", false, 6⟩

/-- A full update body whose `completed` is the truthy number 1. -/
def demoUpd : UpdateReq :=
  ⟨some "u", none, none, some "2024-07-01", some "bob", some (.jnum 1)⟩

/-- A full update body whose `completed` field is absent. -/
def demoUpdNoC : UpdateReq :=
  ⟨some "u", none, none, some "2024-07-01", some "bob", none⟩

/-- The store after updating plan 1 of `demoStore` with `demoUpdNoC`. -/
def demoStoreUpd : Store := (updatePlan 1 demoUpdNoC demoStore).1

/-- The row stored by that update: `completed` coerced from the absent
field to false. -/
def demoPlanUpd : Plan :=
  ⟨1, "u", "", "medium", "2024-07-01", "bob", false, 0⟩

/-! ## Helper lemmas -/

/-- Mapping an id-preserving per-row rewrite over the table commutes with
`SELECT ... WHERE id = ?`. -/
theorem find?_map_of_id (l : List Plan) (i : Nat) (f : Plan → Plan)
    (hf : ∀ p, (f p).id = p.id) :
    (l.map (fun p => if p.id == i then f p else p)).find? (fun q => q.id == i)
      = (l.find? (fun q => q.id == i)).map f := by
  induction l with
  | nil => rfl
  | cons a l ih =>
    simp only [List.map_cons]
    by_cases h : (a.id == i) = true
    · have hfa : ((f a).id == i) = true := by rw [hf]; exact h
      rw [if_pos h, List.find?_cons_of_pos (p := fun q : Plan => q.id == i) _ hfa,
        List.find?_cons_of_pos (p := fun q : Plan => q.id == i) _ h]
      rfl
    · rw [if_neg h, List.find?_cons_of_neg (p := fun q : Plan => q.id == i) _ h,
        List.find?_cons_of_neg (p := fun q : Plan => q.id == i) _ h, ih]

/-- An id-preserving rewrite of the rows matching `i` leaves the rows not
matching `i` untouched, in order. -/
theorem filter_map_of_id (l : List Plan) (i : Nat) (f : Plan → Plan)
    (hf : ∀ p, (f p).id = p.id) :
    (l.map (fun p => if p.id == i then f p else p)).filter (fun p => !(p.id == i))
      = l.filter (fun p => !(p.id == i)) := by
  induction l with
  | nil => rfl
  | cons a l ih =>
    simp only [List.map_cons]
    by_cases h : (a.id == i) = true
    · rw [if_pos h, List.filter_cons_of_neg (p := fun q : Plan => !(q.id == i)) (by simp [hf, h]),
        List.filter_cons_of_neg (p := fun q : Plan => !(q.id == i)) (by simp [h]), ih]
    · rw [if_neg h, List.filter_cons_of_pos (p := fun q : Plan => !(q.id == i)) (by simp [h]),
        List.filter_cons_of_pos (p := fun q : Plan => !(q.id == i)) (by simp [h]), ih]

/-- Under a pairwise strictly increasing id column (the PRIMARY KEY),
at most one row matches a given id. -/
theorem filter_id_length_le_one (l : List Plan) (i : Nat)
    (h : l.Pairwise (fun a b => a.id < b.id)) :
    (l.filter (fun p => p.id == i)).length ≤ 1 := by
  induction l with
  | nil => simp
  | cons a l ih =>
    rw [List.pairwise_cons] at h
    rw [List.filter_cons]
    by_cases ha : (a.id == i) = true
    · rw [if_pos ha]
      have hnone : l.filter (fun p => p.id == i) = [] := by
        rw [List.filter_eq_nil_iff]
        intro p hp
        have h1 := h.1 p hp
        have h2 : a.id = i := by simpa using ha
        simp only [beq_iff_eq]
        omega
      simp [hnone]
    · rw [if_neg ha]
      exact ih h.2

/-- Under a pairwise strictly increasing id column, a row present in the
table is the row `SELECT ... WHERE id = ?` returns. -/
theorem find?_of_mem_pairwise (l : List Plan) (p : Plan) (i : Nat)
    (hp : p ∈ l) (hid : p.id = i)
    (hpw : l.Pairwise (fun a b => a.id < b.id)) :
    l.find? (fun q => q.id == i) = some p := by
  induction l with
  | nil => cases hp
  | cons a l ih =>
    rw [List.pairwise_cons] at hpw
    rw [List.find?_cons]
    rcases List.mem_cons.mp hp with h | h
    · subst h
      simp [hid]
    · have hlt : a.id < p.id := hpw.1 p h
      have hne : (a.id == i) = false := by
        simp only [beq_eq_false_iff_ne, ne_eq]
        omega
      rw [hne]
      exact ih h hpw.2

/-- A well-formed update body makes the per-row `UPDATE` succeed and
produce the total rewrite `updFn`. -/
theorem applyUpdate_eq_ok (req : UpdateReq) (p : Plan) (h : WFReq req) :
    applyUpdate req p = .ok (updFn req p) := by
  obtain ⟨ht, hd, ha, hv⟩ := h
  obtain ⟨t, ht⟩ := Option.isSome_iff_exists.mp ht
  obtain ⟨d, hd⟩ := Option.isSome_iff_exists.mp hd
  obtain ⟨a, ha⟩ := Option.isSome_iff_exists.mp ha
  simp [applyUpdate, ht, hd, ha, hv, updFn]

/-- The fields a successful per-row `UPDATE` writes: the id and the
creation timestamp are untouched, `completed` is the JavaScript
truthiness of the request field, and the written `priority` passed the
`CHECK` constraint. -/
theorem applyUpdate_ok_fields (req : UpdateReq) (p q : Plan)
    (h : applyUpdate req p = .ok q) :
    q.id = p.id ∧ q.created_at = p.created_at ∧
      q.completed = jtruthy req.completed ∧ validPriority q.priority = true := by
  unfold applyUpdate at h
  split at h
  · split at h
    · injection h with h
      subst h
      refine ⟨rfl, rfl, rfl, ?_⟩
      assumption
    · cases h
  · cases h

/-- A well-formed update body makes the whole `UPDATE` statement succeed,
rewriting exactly the matching rows. -/
theorem updateList_eq_ok (req : UpdateReq) (i : Nat) (h : WFReq req) :
    ∀ l : List Plan,
      updateList req i l = .ok (l.map (fun p => if p.id == i then updFn req p else p))
  | [] => rfl
  | p :: rest => by
    by_cases hp : (p.id == i) = true
    · simp only [updateList, if_pos hp, applyUpdate_eq_ok req p h,
        updateList_eq_ok req i h rest, List.map_cons]
    · simp only [updateList, if_neg hp, updateList_eq_ok req i h rest, List.map_cons]

/-- When no row matches, the `UPDATE` statement checks no constraint and
leaves the table unchanged. -/
theorem updateList_of_no_match (req : UpdateReq) (i : Nat) :
    ∀ l : List Plan, (∀ p ∈ l, (p.id == i) = false) →
      updateList req i l = .ok l
  | [], _ => rfl
  | p :: rest, h => by
    have hp : (p.id == i) = false := h p (List.mem_cons_self p rest)
    simp only [updateList, hp, Bool.false_eq_true, if_false,
      updateList_of_no_match req i rest (fun q hq => h q (List.mem_cons_of_mem p hq))]

/-- Every row of a successfully updated table is either an untouched
non-matching row of the old table or the result of the per-row `UPDATE`
on a matching old row. -/
theorem updateList_mem_ok (req : UpdateReq) (i : Nat) :
    ∀ {l l' : List Plan}, updateList req i l = .ok l' →
      ∀ q ∈ l', (q ∈ l ∧ (q.id == i) = false) ∨
        ∃ p ∈ l, (p.id == i) = true ∧ applyUpdate req p = .ok q := by
  intro l
  induction l with
  | nil =>
    intro l' h q hq
    injection h with h
    subst h
    cases hq
  | cons a l ih =>
    intro l' h q hq
    by_cases ha : (a.id == i) = true
    · rw [updateList, if_pos ha] at h
      rcases hau : applyUpdate req a with e | b <;> rw [hau] at h
      · cases h
      · rcases hrest : updateList req i l with e | bs <;> rw [hrest] at h
        · cases h
        · injection h with h
          subst h
          rcases List.mem_cons.mp hq with h | h
          · exact Or.inr ⟨a, List.mem_cons_self a l, ha, h ▸ hau⟩
          · rcases ih hrest q h with ⟨h1, h2⟩ | ⟨p, hp, hpi, hpu⟩
            · exact Or.inl ⟨List.mem_cons_of_mem a h1, h2⟩
            · exact Or.inr ⟨p, List.mem_cons_of_mem a hp, hpi, hpu⟩
    · rw [updateList, if_neg ha] at h
      rcases hrest : updateList req i l with e | bs <;> rw [hrest] at h
      · cases h
      · injection h with h
        subst h
        rcases List.mem_cons.mp hq with h | h
        · subst h
          exact Or.inl ⟨List.mem_cons_self q l, by simpa using ha⟩
        · rcases ih hrest q h with ⟨h1, h2⟩ | ⟨p, hp, hpi, hpu⟩
          · exact Or.inl ⟨List.mem_cons_of_mem a h1, h2⟩
          · exact Or.inr ⟨p, List.mem_cons_of_mem a hp, hpi, hpu⟩

/-- A successful `UPDATE` statement leaves the non-matching rows
untouched, in order. -/
theorem updateList_filter_frame (req : UpdateReq) (i : Nat) :
    ∀ {l l' : List Plan}, updateList req i l = .ok l' →
      l'.filter (fun p => !(p.id == i)) = l.filter (fun p => !(p.id == i)) := by
  intro l
  induction l with
  | nil =>
    intro l' h
    injection h with h
    subst h
    rfl
  | cons a l ih =>
    intro l' h
    by_cases ha : (a.id == i) = true
    · rw [updateList, if_pos ha] at h
      rcases hau : applyUpdate req a with e | b <;> rw [hau] at h
      · cases h
      · rcases hrest : updateList req i l with e | bs <;> rw [hrest] at h
        · cases h
        · injection h with h
          subst h
          have hb : b.id = a.id := (applyUpdate_ok_fields req a b hau).1
          rw [List.filter_cons, List.filter_cons, if_neg (by simp [hb, ha]),
            if_neg (by simp [ha]), ih hrest]
    · rw [updateList, if_neg ha] at h
      rcases hrest : updateList req i l with e | bs <;> rw [hrest] at h
      · cases h
      · injection h with h
        subst h
        rw [List.filter_cons, List.filter_cons, if_pos (by simp [ha]),
          if_pos (by simp [ha]), ih hrest]

/-- Overwriting `completed` with its current value is the identity. -/
theorem set_completed_self (p : Plan) : { p with completed := p.completed } = p := by
  cases p
  rfl

/-- Inversion of a successful create: the new store appends the freshly
numbered row and advances the AUTOINCREMENT counter. -/
theorem createPlan_ok_inv (req : CreateReq) (dbNow jsNow : Nat) (s s' : Store)
    (r : CreateResp) (h : createPlan req dbNow jsNow s = (s', .ok r)) :
    s' = { plans := s.plans ++ [mkPlan req s.nextId dbNow], nextId := s.nextId + 1 } := by
  unfold createPlan at h
  split at h
  · simp at h
  · split at h
    · rw [Prod.mk.injEq] at h
      exact h.1.symm
    · simp at h

/-- A toggle on a present row: the read-then-write handler computed
explicitly. -/
theorem togglePlan_spec (id : Nat) (t : Store) (q : Plan)
    (hq : findPlan id t = some q) :
    togglePlan id t =
      ({ t with plans := t.plans.map (fun w =>
          if w.id == id then { w with completed := !q.completed } else w) },
        .ok (!q.completed, (t.plans.filter (fun w => w.id == id)).length)) := by
  unfold togglePlan
  rw [hq]

/-- After a toggle on a present row, the row looked up by id carries the
negated flag and is otherwise unchanged. -/
theorem findPlan_togglePlan (id : Nat) (t : Store) (q : Plan)
    (hq : findPlan id t = some q) :
    findPlan id (togglePlan id t).1 = some { q with completed := !q.completed } := by
  rw [togglePlan_spec id t q hq]
  show (t.plans.map
      (fun w => if w.id == id then { w with completed := !q.completed } else w)).find?
      (fun p => p.id == id) = some { q with completed := !q.completed }
  have hq' : t.plans.find? (fun p => p.id == id) = some q := hq
  rw [find?_map_of_id t.plans id (fun w => { w with completed := !q.completed })
    (fun w => rfl), hq']
  rfl

/-! ## Claims -/

/-- C1: For every create request in which `title`, `deadline`, or `author`
is absent or empty (JavaScript-falsy), the create operation fails with a
`ValidationError` (surfaced as HTTP 400) and inserts no row (the store is
returned unchanged); for every create request in which all three are
present and non-empty, the validation check passes: the result is never a
`ValidationError`. -/
theorem create_validation (req : CreateReq) (dbNow jsNow : Nat) (s : Store) :
    ((strFalsy req.title || strFalsy req.deadline || strFalsy req.author) = true →
      createPlan req dbNow jsNow s = (s, .error .ValidationError) ∧
        statusOf .ValidationError = 400) ∧
    ((strFalsy req.title || strFalsy req.deadline || strFalsy req.author) = false →
      (createPlan req dbNow jsNow s).2 ≠ Except.error ApiError.ValidationError) := by
  constructor
  · intro h
    rw [createPlan, if_pos h]
    exact ⟨rfl, rfl⟩
  · intro h
    rw [createPlan, if_neg (by simp [h])]
    split
    · simp
    · simp

/-- C1 witness: a request missing `author` is rejected with 400 and no
insertion; the scenario request passes validation. -/
theorem create_validation_witness :
    (createPlan ⟨some "t", none, none, some "d", none⟩ 0 0 initStore
        = (initStore, .error .ValidationError) ∧ statusOf .ValidationError = 400) ∧
    (createPlan demoReq 0 5 initStore).2 ≠ Except.error ApiError.ValidationError :=
  ⟨(create_validation ⟨some "t", none, none, some "d", none⟩ 0 0 initStore).1 (by decide),
   (create_validation demoReq 0 5 initStore).2 (by decide)⟩

/-- C2: For every successful create, the response is the full created
record: the assigned id is the (positive) AUTOINCREMENT value, the given
`title`, `deadline` and `author` are echoed, `description` defaults to
`""` and `priority` to `"medium"` when omitted, `completed` is false, and
the response's `created_at` is the service clock `jsNow` (materialized by
the service), while the row actually stored carries the database clock
`dbNow` — the timestamp is not re-read from storage. -/
theorem create_success_response (req : CreateReq) (dbNow jsNow : Nat)
    (s s' : Store) (resp : CreateResp) (hwf : WF s)
    (h : createPlan req dbNow jsNow s = (s', .ok resp)) :
    0 < resp.id ∧ resp.id = s.nextId ∧
      (∀ t, req.title = some t → resp.title = t) ∧
      (∀ d, req.deadline = some d → resp.deadline = d) ∧
      (∀ a, req.author = some a → resp.author = a) ∧
      (req.description = none → resp.description = "") ∧
      (req.priority = none → resp.priority = "medium") ∧
      resp.completed = false ∧ resp.created_at = jsNow ∧
      (∀ p ∈ s'.plans, p.id = resp.id → p.created_at = dbNow) := by
  unfold createPlan at h
  split at h
  · simp at h
  · split at h
    · rw [Prod.mk.injEq] at h
      obtain ⟨hs, hr⟩ := h
      injection hr with hr
      subst hs
      subst hr
      refine ⟨hwf.1, rfl, ?_, ?_, ?_, ?_, ?_, rfl, rfl, ?_⟩
      · intro t ht
        simp [ht]
      · intro d hd
        simp [hd]
      · intro a ha
        simp [ha]
      · intro hd
        simp [hd, orDefault]
      · intro hp
        simp [hp, orDefault]
      · intro p hp hid
        rcases List.mem_append.mp hp with hmem | hmem
        · have hlt := (hwf.2.1 p hmem).2
          have hid' : p.id = s.nextId := hid
          omega
        · simp only [List.mem_singleton] at hmem
          subst hmem
          rfl
    · simp at h

/-- C2 witness: the end-to-end scenario create. -/
theorem create_success_response_witness :
    0 < demoResp.id ∧ demoResp.id = initStore.nextId ∧
      (∀ t, demoReq.title = some t → demoResp.title = t) ∧
      (∀ d, demoReq.deadline = some d → demoResp.deadline = d) ∧
      (∀ a, demoReq.author = some a → demoResp.author = a) ∧
      (demoReq.description = none → demoResp.description = "") ∧
      (demoReq.priority = none → demoResp.priority = "medium") ∧
      demoResp.completed = false ∧ demoResp.created_at = 5 ∧
      (∀ p ∈ demoStore.plans, p.id = demoResp.id → p.created_at = 0) :=
  create_success_response demoReq 0 5 initStore demoStore demoResp
    ⟨by decide, by decide, by decide⟩ rfl

/-- C3 counterexample: on the empty store the handler's `SUM` aggregates
are SQL `NULL` (JSON `null`), not the exact count 0 of matching rows, so
the claimed invariant fails for the empty store. -/
theorem stats_empty_null :
    (getStats initStore).total = 0 ∧
      (getStats initStore).completed = none ∧
      (getStats initStore).completed ≠ some 0 ∧
      (getStats initStore).high_priority = none ∧
      (getStats initStore).high_priority ≠ some 0 := by
  decide

/-- C3 (amended): `total` always counts all plans; on every nonempty
store, `completed` and `high_priority` count the matching rows exactly
and are each at most `total`; on the empty store (`total = 0`) the two
`SUM` aggregates are null. -/
theorem stats_counts (s : Store) :
    (getStats s).total = s.plans.length ∧
    (s.plans = [] →
      (getStats s).completed = none ∧ (getStats s).high_priority = none) ∧
    (s.plans ≠ [] →
      (getStats s).completed
          = some ((s.plans.filter (fun p => p.completed)).length) ∧
      (getStats s).high_priority
          = some ((s.plans.filter (fun p => p.priority == "high")).length) ∧
      (s.plans.filter (fun p => p.completed)).length ≤ (getStats s).total ∧
      (s.plans.filter (fun p => p.priority == "high")).length
          ≤ (getStats s).total) := by
  refine ⟨rfl, ?_, ?_⟩
  · intro h
    simp [getStats, h]
  · intro h
    have hne : s.plans.isEmpty = false := by
      simpa [List.isEmpty_iff] using h
    refine ⟨by simp [getStats, hne], by simp [getStats, hne], ?_, ?_⟩
    · exact List.length_filter_le _ _
    · exact List.length_filter_le _ _

/-- C3 witness: the amended statement evaluated on a one-row store. -/
theorem stats_counts_witness :
    (getStats demoStore).completed
        = some ((demoStore.plans.filter (fun p => p.completed)).length) ∧
    (getStats demoStore).high_priority
        = some ((demoStore.plans.filter (fun p => p.priority == "high")).length) ∧
    (demoStore.plans.filter (fun p => p.completed)).length
        ≤ (getStats demoStore).total ∧
    (demoStore.plans.filter (fun p => p.priority == "high")).length
        ≤ (getStats demoStore).total :=
  (stats_counts demoStore).2.2 (by decide)

/-- C5: For every identifier matching no stored plan, get, update, delete
and toggle each fail with `NotFound` (HTTP 404) — never a `StorageError`,
even for an ill-formed update body, since the SQL statement touches no
row — and the store is returned unchanged. -/
theorem notfound_semantics (id : Nat) (req : UpdateReq) (s : Store)
    (h : ∀ p ∈ s.plans, (p.id == id) = false) :
    getPlan id s = .error .NotFound ∧
      updatePlan id req s = (s, .error .NotFound) ∧
      deletePlan id s = (s, .error .NotFound) ∧
      togglePlan id s = (s, .error .NotFound) ∧
      statusOf .NotFound = 404 := by
  have hfind : s.plans.find? (fun p => p.id == id) = none :=
    List.find?_eq_none.mpr (fun p hp => by simp [h p hp])
  have hfilter : (s.plans.filter (fun p => p.id == id)).length = 0 := by
    rw [List.length_eq_zero, List.filter_eq_nil_iff]
    intro p hp
    simp [h p hp]
  refine ⟨?_, ?_, ?_, ?_, rfl⟩
  · rw [getPlan, findPlan, hfind]
  · rw [updatePlan, updateList_of_no_match req id s.plans h]
    simp [hfilter]
  · simp [deletePlan, hfilter]
  · rw [togglePlan, findPlan, hfind]

/-- C5 witness: identifier 5 matches nothing in the one-row store. -/
theorem notfound_semantics_witness :
    getPlan 5 demoStore = .error .NotFound ∧
      updatePlan 5 demoUpd demoStore = (demoStore, .error .NotFound) ∧
      deletePlan 5 demoStore = (demoStore, .error .NotFound) ∧
      togglePlan 5 demoStore = (demoStore, .error .NotFound) ∧
      statusOf .NotFound = 404 :=
  notfound_semantics 5 demoUpd demoStore (by decide)

/-- C4: An update whose identifier matches no row fails with `NotFound`;
an update of an existing plan with a well-formed body (per the spec's
input signature) replaces all mutable fields unconditionally — an absent
`description` or `priority` is normalized to `""` and `"medium"` by
`updFn`, not left untouched — keeps `id` and `created_at` immutable, and
returns a change count of exactly 1. -/
theorem update_semantics (id : Nat) (req : UpdateReq) (s : Store) (hwf : WF s) :
    ((∀ p ∈ s.plans, (p.id == id) = false) →
      updatePlan id req s = (s, .error .NotFound)) ∧
    (∀ p ∈ s.plans, p.id = id → WFReq req →
      updatePlan id req s =
        ({ s with plans := s.plans.map (fun q =>
            if q.id == id then updFn req q else q) }, .ok 1) ∧
      findPlan id ({ s with plans := s.plans.map (fun q =>
          if q.id == id then updFn req q else q) } : Store) = some (updFn req p) ∧
      (updFn req p).id = p.id ∧ (updFn req p).created_at = p.created_at ∧
      (updFn req p).title = req.title.getD "" ∧
      (updFn req p).description = orDefault req.description "" ∧
      (updFn req p).priority = orDefault req.priority "medium" ∧
      (updFn req p).deadline = req.deadline.getD "" ∧
      (updFn req p).author = req.author.getD "" ∧
      (updFn req p).completed = jtruthy req.completed) := by
  constructor
  · intro h
    have hfilter : (s.plans.filter (fun p => p.id == id)).length = 0 := by
      rw [List.length_eq_zero, List.filter_eq_nil_iff]
      intro p hp
      simp [h p hp]
    rw [updatePlan, updateList_of_no_match req id s.plans h]
    simp [hfilter]
  · intro p hp hpid hreq
    have hchanges : (s.plans.filter (fun q => q.id == id)).length = 1 := by
      have hle := filter_id_length_le_one s.plans id hwf.2.2
      have hmem : p ∈ s.plans.filter (fun q => q.id == id) :=
        List.mem_filter.mpr ⟨hp, by simp [hpid]⟩
      have hpos : 0 < (s.plans.filter (fun q => q.id == id)).length :=
        List.length_pos.mpr (List.ne_nil_of_mem hmem)
      omega
    have hfound : findPlan id ({ s with plans := s.plans.map (fun q =>
        if q.id == id then updFn req q else q) } : Store) = some (updFn req p) := by
      unfold findPlan
      show (s.plans.map (fun q => if q.id == id then updFn req q else q)).find?
          (fun q => q.id == id) = some (updFn req p)
      rw [find?_map_of_id s.plans id (updFn req) (fun q => rfl),
        find?_of_mem_pairwise s.plans p id hp hpid hwf.2.2]
      rfl
    refine ⟨?_, hfound, rfl, rfl, rfl, rfl, rfl, rfl, rfl, rfl⟩
    rw [updatePlan, updateList_eq_ok req id hreq s.plans]
    simp [hchanges]

/-- C4 witness: updating the scenario row with a full body. -/
theorem update_semantics_witness :
    updatePlan 1 demoUpd demoStore =
      ({ demoStore with plans := demoStore.plans.map (fun q =>
          if q.id == 1 then updFn demoUpd q else q) }, .ok 1) ∧
    findPlan 1 ({ demoStore with plans := demoStore.plans.map (fun q =>
        if q.id == 1 then updFn demoUpd q else q) } : Store)
      = some (updFn demoUpd demoPlan) ∧
    (updFn demoUpd demoPlan).id = demoPlan.id ∧
    (updFn demoUpd demoPlan).created_at = demoPlan.created_at ∧
    (updFn demoUpd demoPlan).title = demoUpd.title.getD "" ∧
    (updFn demoUpd demoPlan).description = orDefault demoUpd.description "" ∧
    (updFn demoUpd demoPlan).priority = orDefault demoUpd.priority "medium" ∧
    (updFn demoUpd demoPlan).deadline = demoUpd.deadline.getD "" ∧
    (updFn demoUpd demoPlan).author = demoUpd.author.getD "" ∧
    (updFn demoUpd demoPlan).completed = jtruthy demoUpd.completed :=
  (update_semantics 1 demoUpd demoStore ⟨by decide, by decide, by decide⟩).2
    demoPlan (by decide) rfl ⟨by decide, by decide, by decide, by decide⟩

/-- C6: A single toggle on an existing plan reads the current `completed`
flag and writes its logical negation (the response reports the negated
flag, and the stored row afterwards carries it, all other fields
unchanged); a second sequential toggle restores the original row
exactly. -/
theorem toggle_involution (id : Nat) (s : Store) (p : Plan)
    (h : findPlan id s = some p) :
    (togglePlan id s).2
        = .ok (!p.completed, (s.plans.filter (fun q => q.id == id)).length) ∧
    findPlan id (togglePlan id s).1 = some { p with completed := !p.completed } ∧
    (togglePlan id (togglePlan id s).1).2
        = .ok (p.completed,
            ((togglePlan id s).1.plans.filter (fun q => q.id == id)).length) ∧
    findPlan id (togglePlan id (togglePlan id s).1).1 = some p := by
  have hf1 := findPlan_togglePlan id s p h
  refine ⟨?_, hf1, ?_, ?_⟩
  · rw [togglePlan_spec id s p h]
  · rw [togglePlan_spec id (togglePlan id s).1 _ hf1]
    simp [Bool.not_not]
  · have hf2 := findPlan_togglePlan id (togglePlan id s).1 _ hf1
    rw [hf2]
    simp [Bool.not_not]

/-- C6 witness: toggling the scenario row twice. -/
theorem toggle_involution_witness :
    (togglePlan 1 demoStore).2
        = .ok (!demoPlan.completed,
            (demoStore.plans.filter (fun q => q.id == 1)).length) ∧
    findPlan 1 (togglePlan 1 demoStore).1
        = some { demoPlan with completed := !demoPlan.completed } ∧
    (togglePlan 1 (togglePlan 1 demoStore).1).2
        = .ok (demoPlan.completed,
            ((togglePlan 1 demoStore).1.plans.filter (fun q => q.id == 1)).length) ∧
    findPlan 1 (togglePlan 1 (togglePlan 1 demoStore).1).1 = some demoPlan :=
  toggle_involution 1 demoStore demoPlan rfl

/-- C9: For every successful update, every stored row carrying the
updated identifier has its `completed` flag equal to the JavaScript
truthiness of the request's `completed` field — in particular false when
the field is absent or falsy, true when it is truthy. -/
theorem update_completed_coercion (id : Nat) (req : UpdateReq) (s s' : Store)
    (n : Nat) (h : updatePlan id req s = (s', .ok n)) :
    ∀ p ∈ s'.plans, p.id = id →
      p.completed = jtruthy req.completed ∧
      (req.completed = none → p.completed = false) := by
  unfold updatePlan at h
  rcases hul : updateList req id s.plans with e | newPlans <;> rw [hul] at h <;>
    dsimp only at h
  · exact absurd h (by simp)
  · by_cases hc : (((s.plans.filter (fun p => p.id == id)).length == 0) = true)
    · rw [if_pos hc] at h
      exact absurd h (by simp)
    · rw [if_neg hc] at h
      rw [Prod.mk.injEq] at h
      obtain ⟨hs, hn⟩ := h
      subst hs
      intro p hp hpid
      have hp' : p ∈ newPlans := hp
      rcases updateList_mem_ok req id hul p hp' with ⟨hmem, hne⟩ | ⟨q, hq, hqi, hqu⟩
      · rw [hpid] at hne
        simp at hne
      · have hcomp := (applyUpdate_ok_fields req q p hqu).2.2.1
        exact ⟨hcomp, fun hnone => by rw [hcomp, hnone]; rfl⟩

/-- C9 witness: an update with `completed` absent stores false. -/
theorem update_completed_coercion_witness :
    demoPlanUpd.completed = jtruthy demoUpdNoC.completed ∧
      (demoUpdNoC.completed = none → demoPlanUpd.completed = false) :=
  update_completed_coercion 1 demoUpdNoC demoStore demoStoreUpd 1 rfl
    demoPlanUpd (by decide) rfl

/-- C10: Update, delete and toggle with identifier `id` leave every
stored row with a different id untouched (the sublist of non-matching
rows is unchanged, so in particular each such row is still present); get
is a pure read in this model, so its frame condition holds by
construction.  A successful update or delete reports a change count of
exactly 1. -/
theorem frame_and_changes (id : Nat) (req : UpdateReq) (s : Store) (hwf : WF s) :
    ((updatePlan id req s).1.plans.filter (fun p => !(p.id == id))
        = s.plans.filter (fun p => !(p.id == id))) ∧
    ((deletePlan id s).1.plans.filter (fun p => !(p.id == id))
        = s.plans.filter (fun p => !(p.id == id))) ∧
    ((togglePlan id s).1.plans.filter (fun p => !(p.id == id))
        = s.plans.filter (fun p => !(p.id == id))) ∧
    (∀ q ∈ s.plans, (q.id == id) = false →
      q ∈ (updatePlan id req s).1.plans ∧ q ∈ (deletePlan id s).1.plans ∧
        q ∈ (togglePlan id s).1.plans) ∧
    (∀ s' n, updatePlan id req s = (s', .ok n) → n = 1) ∧
    (∀ s' n, deletePlan id s = (s', .ok n) → n = 1) := by
  have hupd : (updatePlan id req s).1.plans.filter (fun p => !(p.id == id))
      = s.plans.filter (fun p => !(p.id == id)) := by
    unfold updatePlan
    rcases hul : updateList req id s.plans with e | newPlans
    · rfl
    · dsimp only
      by_cases hc : (((s.plans.filter (fun p => p.id == id)).length == 0) = true)
      · rw [if_pos hc]
      · rw [if_neg hc]
        exact updateList_filter_frame req id hul
  have hdel : (deletePlan id s).1.plans.filter (fun p => !(p.id == id))
      = s.plans.filter (fun p => !(p.id == id)) := by
    unfold deletePlan
    by_cases hc : (((s.plans.filter (fun p => p.id == id)).length == 0) = true)
    · rw [if_pos hc]
    · rw [if_neg hc]
      show (s.plans.filter (fun p => !(p.id == id))).filter (fun p => !(p.id == id))
          = s.plans.filter (fun p => !(p.id == id))
      simp [List.filter_filter]
  have htog : (togglePlan id s).1.plans.filter (fun p => !(p.id == id))
      = s.plans.filter (fun p => !(p.id == id)) := by
    unfold togglePlan
    rcases hf : findPlan id s with _ | row
    · rfl
    · exact filter_map_of_id s.plans id
        (fun q => { q with completed := !row.completed }) (fun q => rfl)
  refine ⟨hupd, hdel, htog, ?_, ?_, ?_⟩
  · intro q hq hqid
    have hmem : q ∈ s.plans.filter (fun p => !(p.id == id)) :=
      List.mem_filter.mpr ⟨hq, by simp [hqid]⟩
    exact ⟨List.mem_of_mem_filter (hupd ▸ hmem),
      List.mem_of_mem_filter (hdel ▸ hmem),
      List.mem_of_mem_filter (htog ▸ hmem)⟩
  · intro s' n h
    unfold updatePlan at h
    rcases hul : updateList req id s.plans with e | newPlans <;> rw [hul] at h <;>
      dsimp only at h
    · exact absurd h (by simp)
    · by_cases hc : (((s.plans.filter (fun p => p.id == id)).length == 0) = true)
      · rw [if_pos hc] at h
        exact absurd h (by simp)
      · rw [if_neg hc] at h
        rw [Prod.mk.injEq] at h
        have hn := h.2
        injection hn with hn
        have hle := filter_id_length_le_one s.plans id hwf.2.2
        have hne : (s.plans.filter (fun p => p.id == id)).length ≠ 0 := by
          simpa using hc
        omega
  · intro s' n h
    unfold deletePlan at h
    by_cases hc : (((s.plans.filter (fun p => p.id == id)).length == 0) = true)
    · rw [if_pos hc] at h
      exact absurd h (by simp)
    · rw [if_neg hc] at h
      rw [Prod.mk.injEq] at h
      have hn := h.2
      injection hn with hn
      have hle := filter_id_length_le_one s.plans id hwf.2.2
      have hne : (s.plans.filter (fun p => p.id == id)).length ≠ 0 := by
        simpa using hc
      omega

/-- C10 witness: the frame equations on the one-row store. -/
theorem frame_and_changes_witness :
    ((updatePlan 1 demoUpd demoStore).1.plans.filter (fun p => !(p.id == 1))
        = demoStore.plans.filter (fun p => !(p.id == 1))) ∧
    ((deletePlan 1 demoStore).1.plans.filter (fun p => !(p.id == 1))
        = demoStore.plans.filter (fun p => !(p.id == 1))) ∧
    ((togglePlan 1 demoStore).1.plans.filter (fun p => !(p.id == 1))
        = demoStore.plans.filter (fun p => !(p.id == 1))) :=
  ⟨(frame_and_changes 1 demoUpd demoStore ⟨by decide, by decide, by decide⟩).1,
   (frame_and_changes 1 demoUpd demoStore ⟨by decide, by decide, by decide⟩).2.1,
   (frame_and_changes 1 demoUpd demoStore ⟨by decide, by decide, by decide⟩).2.2.1⟩

/-- C8: In every store state reachable from the fresh database by the
service's operations, every stored row's `priority` is one of low,
medium, high; and a create request that passes validation but supplies a
priority value outside the enumeration is rejected by the `CHECK`
constraint with a `StorageError`, inserting no row. -/
theorem priority_invariant :
    (∀ s, Reachable s → ∀ p ∈ s.plans, validPriority p.priority = true) ∧
    (∀ req dbNow jsNow s pr, req.priority = some pr → pr ≠ "" →
      validPriority pr = false →
      strFalsy req.title = false → strFalsy req.deadline = false →
      strFalsy req.author = false →
      createPlan req dbNow jsNow s = (s, .error .StorageError)) := by
  constructor
  · intro s hs
    induction hs with
    | init =>
      intro p hp
      exact absurd hp (by simp [initStore])
    | create req dbNow jsNow t ht ih =>
      intro p hp
      unfold createPlan at hp
      by_cases h1 : ((strFalsy req.title || strFalsy req.deadline
          || strFalsy req.author) = true)
      · rw [if_pos h1] at hp
        exact ih p hp
      · rw [if_neg h1] at hp
        by_cases h2 : (validPriority (orDefault req.priority "medium") = true)
        · rw [if_pos h2] at hp
          have hp' : p ∈ t.plans ++ [mkPlan req t.nextId dbNow] := hp
          rcases List.mem_append.mp hp' with hm | hm
          · exact ih p hm
          · simp only [List.mem_singleton] at hm
            subst hm
            exact h2
        · rw [if_neg h2] at hp
          exact ih p hp
    | update id req t ht ih =>
      intro p hp
      unfold updatePlan at hp
      rcases hul : updateList req id t.plans with e | newPlans <;> rw [hul] at hp <;>
        dsimp only at hp
      · exact ih p hp
      · by_cases hc : (((t.plans.filter (fun q => q.id == id)).length == 0) = true)
        · rw [if_pos hc] at hp
          exact ih p hp
        · rw [if_neg hc] at hp
          have hp' : p ∈ newPlans := hp
          rcases updateList_mem_ok req id hul p hp' with ⟨hm, _⟩ | ⟨q, hq, _, hqu⟩
          · exact ih p hm
          · exact (applyUpdate_ok_fields req q p hqu).2.2.2
    | del id t ht ih =>
      intro p hp
      unfold deletePlan at hp
      by_cases hc : (((t.plans.filter (fun q => q.id == id)).length == 0) = true)
      · rw [if_pos hc] at hp
        exact ih p hp
      · rw [if_neg hc] at hp
        exact ih p (List.mem_of_mem_filter hp)
    | toggle id t ht ih =>
      intro p hp
      unfold togglePlan at hp
      rcases hf : findPlan id t with _ | row <;> rw [hf] at hp
      · exact ih p hp
      · have hp' : p ∈ t.plans.map (fun q =>
            if q.id == id then { q with completed := !row.completed } else q) := hp
        rcases List.mem_map.mp hp' with ⟨q, hq, hqe⟩
        subst hqe
        by_cases hqi : ((q.id == id) = true)
        · rw [if_pos hqi]
          exact ih q hq
        · rw [if_neg hqi]
          exact ih q hq
  · intro req dbNow jsNow s pr hpr hne hval ht hd ha
    have hod : orDefault req.priority "medium" = pr := by
      simp [orDefault, hpr, hne]
    rw [createPlan, if_neg (by simp [ht, hd, ha]), if_neg (by simp [hod, hval])]

/-- C8 witness: the scenario store is reachable and its row's priority is
in the enumeration; a create with priority `"urgent"` is rejected by the
store. -/
theorem priority_invariant_witness :
    validPriority demoPlan.priority = true ∧
    createPlan ⟨some "t", none, some "urgent", some "d", some "a"⟩ 0 0 initStore
      = (initStore, .error .StorageError) :=
  ⟨priority_invariant.1 demoStore
      (Reachable.create demoReq 0 5 initStore Reachable.init) demoPlan (by decide),
   priority_invariant.2 ⟨some "t", none, some "urgent", some "d", some "a"⟩ 0 0
      initStore "urgent" rfl (by decide) (by decide) (by decide) (by decide)
      (by decide)⟩

/-- C7: The list operation returns all stored plans (a permutation of the
table) ordered by `created_at` descending; in particular, after two
successful creates in sequence at increasing database clock, the
later-created row occupies an earlier position in the returned array than
the earlier-created row. -/
theorem list_order (s s1 s2 : Store) (req1 req2 : CreateReq)
    (t1 t2 j1 j2 : Nat) (r1 r2 : CreateResp) (ht : t1 < t2)
    (h1 : createPlan req1 t1 j1 s = (s1, .ok r1))
    (h2 : createPlan req2 t2 j2 s1 = (s2, .ok r2)) :
    (listPlans s2).Perm s2.plans ∧
    (listPlans s2).Pairwise (fun a b => b.created_at ≤ a.created_at) ∧
    ∃ i j : Nat, i < j ∧ (listPlans s2)[i]? = some (mkPlan req2 s1.nextId t2) ∧
      (listPlans s2)[j]? = some (mkPlan req1 s.nextId t1) := by
  have hinv1 := createPlan_ok_inv req1 t1 j1 s s1 r1 h1
  have hinv2 := createPlan_ok_inv req2 t2 j2 s1 s2 r2 h2
  have hperm : (listPlans s2).Perm s2.plans := List.mergeSort_perm _ _
  have htrans : ∀ a b c : Plan, decide (b.created_at ≤ a.created_at) = true →
      decide (c.created_at ≤ b.created_at) = true →
      decide (c.created_at ≤ a.created_at) = true := by
    intro a b c hab hbc
    simp only [decide_eq_true_eq] at hab hbc ⊢
    omega
  have htotal : ∀ a b : Plan, (decide (b.created_at ≤ a.created_at)
      || decide (a.created_at ≤ b.created_at)) = true := by
    intro a b
    simp only [Bool.or_eq_true, decide_eq_true_eq]
    exact Nat.le_total _ _
  have hsorted : (listPlans s2).Pairwise
      (fun a b => b.created_at ≤ a.created_at) := by
    have hs := List.sorted_mergeSort htrans htotal s2.plans
    exact List.Pairwise.imp (fun hab => of_decide_eq_true hab) hs
  refine ⟨hperm, hsorted, ?_⟩
  have hP2mem : mkPlan req2 s1.nextId t2 ∈ s2.plans := by
    rw [hinv2]
    simp
  have hP1mem : mkPlan req1 s.nextId t1 ∈ s2.plans := by
    rw [hinv2, hinv1]
    simp
  obtain ⟨i, hi⟩ := List.mem_iff_getElem?.mp (hperm.mem_iff.mpr hP2mem)
  obtain ⟨j, hj⟩ := List.mem_iff_getElem?.mp (hperm.mem_iff.mpr hP1mem)
  refine ⟨i, j, ?_, hi, hj⟩
  by_contra hij
  push_neg at hij
  rcases eq_or_lt_of_le hij with heq | hlt
  · rw [heq] at hj
    rw [hi] at hj
    injection hj with hj
    have hid : s1.nextId = s.nextId := congrArg Plan.id hj
    have h1' : s1.nextId = s.nextId + 1 := by
      rw [hinv1]
    omega
  · obtain ⟨hilen, hieq⟩ := List.getElem?_eq_some.mp hi
    obtain ⟨hjlen, hjeq⟩ := List.getElem?_eq_some.mp hj
    have hrel := (List.pairwise_iff_getElem.mp hsorted) j i hjlen hilen hlt
    rw [hieq, hjeq] at hrel
    have ht2 : (mkPlan req2 s1.nextId t2).created_at = t2 := rfl
    have ht1 : (mkPlan req1 s.nextId t1).created_at = t1 := rfl
    rw [ht2, ht1] at hrel
    omega

/-- C7 witness: the two scenario creates at database clocks 0 then 1. -/
theorem list_order_witness :
    (listPlans demoStore2).Perm demoStore2.plans ∧
    (listPlans demoStore2).Pairwise (fun a b => b.created_at ≤ a.created_at) ∧
    ∃ i j : Nat, i < j ∧
      (listPlans demoStore2)[i]? = some (mkPlan demoReq demoStore.nextId 1) ∧
      (listPlans demoStore2)[j]? = some (mkPlan demoReq initStore.nextId 0) :=
  list_order initStore demoStore demoStore2 demoReq demoReq 0 1 5 6
    demoResp demoResp2 (by decide) rfl rfl

end PlanStore
